import Mathlib

/-!
Verification of `centermask/demo/predictor_batch_4.py` (class `COCODemo`).

This file shallowly embeds the prediction-selection algorithm
(`COCODemo.select_top_predictions`), the overlay routines
(`overlay_boxes`, `overlay_mask`, `overlay_class_names`), the montage
builder (`create_mask_montage`) and the dispatch logic of
`run_on_opencv_image`, and proves or refutes the specification claims
about them.

Modelling conventions:
* machine floats (scores, thresholds, box coordinates) are modelled as
  rationals `ℚ`;
* a `BoxList` is modelled as a `DetectionSet`: a list of per-detection
  records plus a flag recording whether the `mask_scores` field is
  present (in a `BoxList` a field is present for all rows or none);
* Python list indexing `t[i]` (which wraps negative indices once and
  raises `IndexError` out of range) is modelled by `pyGet`; the
  `IndexError` raised by `self.confidence_threshold[v-1]` is the
  configuration error of the spec, modelled as `SelectError.configurationError`;
* `torch.Tensor.sort(0, descending=True)` promises no tie order
  without `stable=True`, so its tie behaviour is implementation-defined;
  the executable model uses `List.insertionSort` (one valid descending
  sort) as a determinization, and only tie-order-insensitive
  properties — membership, permutation with the filter output,
  descending raw-score order — are read off it (tie-order-sensitive
  properties of the program are left unsettled);
* images are pixel functions `ℕ → ℕ → Color` (row, column); OpenCV
  drawing primitives mutate their argument buffer in place and return
  it, so the buffer seen by the caller after a call is the returned
  image.
-/

/-- BGR/RGB pixel value (a triple of channel values). -/
def Color : Type := ℕ × ℕ × ℕ

instance : DecidableEq Color := inferInstanceAs (DecidableEq (ℕ × ℕ × ℕ))

/-- One detection row of a `BoxList`: class label (`labels` field),
raw confidence (`scores` field), mask-quality score (`mask_scores`
field; meaningful only when the set carries mask scores), bounding box
`(x1, y1, x2, y2)` (`bbox` rows) and the binary instance mask
(`mask` field, single channel, rows of pixel values). -/
structure Detection where
  label : ℤ
  score : ℚ
  maskScore : ℚ
  box : ℚ × ℚ × ℚ × ℚ
  mask : List (List ℕ)
deriving DecidableEq, Repr

/-- A `BoxList` for one image: the detections in detector order, plus
whether the optional `mask_scores` field is present
(`predictions.has_field("mask_scores")`). -/
structure DetectionSet where
  dets : List Detection
  hasMaskScores : Bool
deriving DecidableEq, Repr

/-- Error raised by `select_top_predictions` when the per-class
threshold lookup `self.confidence_threshold[v-1]` fails: a Python
`IndexError`, which the spec calls `ConfigurationError`. -/
inductive SelectError where
  | configurationError
deriving DecidableEq, Repr

/-- Python list indexing `l[i]`: a negative index is wrapped once by
adding `len(l)`; an index that is still out of range raises
(`none`). -/
def pyGet (l : List ℚ) (i : ℤ) : Option ℚ :=
  let j : ℤ := if i < 0 then (l.length : ℤ) + i else i
  if 0 ≤ j then l[j.toNat]? else none

/-- The score `select_top_predictions` filters with: the
`mask_scores` field when present, else the raw `scores` field. -/
def effScore (hasMS : Bool) (d : Detection) : ℚ :=
  if hasMS then d.maskScore else d.score

/-- The per-detection threshold lookup
`thresholds = self.confidence_threshold[v-1]` inside the selection
loop; raises `configurationError` when the Python indexing fails. -/
def lookupThreshold (T : List ℚ) (d : Detection) : Except SelectError ℚ :=
  match pyGet T (d.label - 1) with
  | some t => .ok t
  | none => .error .configurationError

/-- `True` iff the detection survives the filter in
`select_top_predictions`: its lookup succeeds and its effective score
strictly exceeds the looked-up threshold. -/
def passB (hasMS : Bool) (T : List ℚ) (d : Detection) : Bool :=
  match pyGet T (d.label - 1) with
  | some t => decide (t < effScore hasMS d)
  | none => false

/-- The filter loop of `select_top_predictions`
(`for i,v in enumerate(labels): ... if scores[i] > thresholds: keep.append(i)`
followed by `predictions[keep]`): keeps, in order, the detections whose
effective score strictly exceeds their class threshold, raising at the
first detection whose threshold lookup fails. -/
def filterKeep (hasMS : Bool) (T : List ℚ) : List Detection → Except SelectError (List Detection)
  | [] => .ok []
  | d :: ds =>
    match lookupThreshold T d with
    | .error e => .error e
    | .ok t =>
      match filterKeep hasMS T ds with
      | .error e => .error e
      | .ok rest => .ok (if t < effScore hasMS d then d :: rest else rest)

/-- Sort relation used on the kept predictions: descending by the raw
`scores` field (the code re-reads `scores = predictions.get_field("scores")`
after filtering, so the sort key is always the raw score). -/
def scoreGE (a b : Detection) : Prop := b.score ≤ a.score

instance : DecidableRel scoreGE :=
  fun a b => inferInstanceAs (Decidable (b.score ≤ a.score))

instance : IsTotal Detection scoreGE :=
  ⟨fun a b => le_total b.score a.score⟩

instance : IsTrans Detection scoreGE :=
  ⟨fun _ _ _ hab hbc => le_trans hbc hab⟩

/-- `COCODemo.select_top_predictions`: filter by the effective score
against the per-class threshold, then sort the survivors by raw score,
descending (stable). -/
def select (D : DetectionSet) (T : List ℚ) : Except SelectError DetectionSet :=
  match filterKeep D.hasMaskScores T D.dets with
  | .error e => .error e
  | .ok kept => .ok ⟨List.insertionSort scoreGE kept, D.hasMaskScores⟩

lemma filterKeep_ok_eq {hasMS : Bool} {T : List ℚ} :
    ∀ {l : List Detection} {K : List Detection},
      filterKeep hasMS T l = .ok K → K = l.filter (passB hasMS T) := by
  intro l
  induction l with
  | nil => intro K h; simpa [filterKeep] using h.symm
  | cons d ds ih =>
    intro K h
    rw [filterKeep] at h
    rcases hl : lookupThreshold T d with e | t
    · rw [hl] at h; exact absurd h (by simp)
    · rw [hl] at h
      rcases hr : filterKeep hasMS T ds with e | rest
      · rw [hr] at h; exact absurd h (by simp)
      · rw [hr] at h
        have hrest := ih hr
        have hK : K = if t < effScore hasMS d then d :: rest else rest := by
          simpa using h.symm
        have hget : pyGet T (d.label - 1) = some t := by
          unfold lookupThreshold at hl
          rcases hg : pyGet T (d.label - 1) with _ | t'
          · rw [hg] at hl; exact absurd hl (by simp)
          · rw [hg] at hl; simpa using hl
        have hpass : passB hasMS T d = decide (t < effScore hasMS d) := by
          unfold passB; rw [hget]
        subst hrest
        rw [hK, List.filter_cons, hpass]
        by_cases hlt : t < effScore hasMS d <;> simp [hlt]

lemma filterKeep_error_of_none {hasMS : Bool} {T : List ℚ} :
    ∀ {l : List Detection} {d : Detection}, d ∈ l → pyGet T (d.label - 1) = none →
      filterKeep hasMS T l = .error .configurationError := by
  intro l
  induction l with
  | nil => intro d hd _; exact absurd hd (List.not_mem_nil d)
  | cons a ds ih =>
    intro d hd hnone
    rcases List.mem_cons.mp hd with rfl | hmem
    · rw [filterKeep, lookupThreshold, hnone]
    · rw [filterKeep]
      rcases hl : lookupThreshold T a with e | t
      · cases e; rfl
      · rw [ih hmem hnone]

lemma select_ok_eq {D : DetectionSet} {T : List ℚ} {R : DetectionSet}
    (h : select D T = .ok R) :
    R.dets = List.insertionSort scoreGE (D.dets.filter (passB D.hasMaskScores T)) ∧
      R.hasMaskScores = D.hasMaskScores := by
  unfold select at h
  rcases hf : filterKeep D.hasMaskScores T D.dets with e | kept
  · rw [hf] at h; exact absurd h (by simp)
  · rw [hf] at h
    have hK := filterKeep_ok_eq hf
    subst hK
    have hR : R = ⟨List.insertionSort scoreGE (D.dets.filter (passB D.hasMaskScores T)),
        D.hasMaskScores⟩ := by simpa using h.symm
    rw [hR]
    exact ⟨rfl, rfl⟩

lemma pyGet_none_of_ge {T : List ℚ} {i : ℤ} (h0 : 0 ≤ i) (hlen : (T.length : ℤ) ≤ i) :
    pyGet T i = none := by
  unfold pyGet
  have hnotneg : ¬i < 0 := not_lt.mpr h0
  simp only [hnotneg, if_false, if_pos h0]
  exact List.getElem?_eq_none (by omega)

/-- Sort relation the SPEC prescribes when mask scores are present:
descending by the effective (mask) score. Used only to state the spec
side of claim C1. -/
def effGE (hasMS : Bool) (a b : Detection) : Prop :=
  effScore hasMS b ≤ effScore hasMS a

instance (hasMS : Bool) : DecidableRel (effGE hasMS) :=
  fun a b => inferInstanceAs (Decidable (effScore hasMS b ≤ effScore hasMS a))

/-- Modelled from the spec's words (for comparison with `select`, the
function translated from the code): "If the detection carries a
mask-quality score, use that score instead of the raw detection score
for both the filter and the subsequent sort" — i.e. filter by the
effective score and also sort by the effective score, descending,
stable. -/
def selectSpecC1 (D : DetectionSet) (T : List ℚ) : Except SelectError DetectionSet :=
  match filterKeep D.hasMaskScores T D.dets with
  | .error e => .error e
  | .ok kept => .ok ⟨List.insertionSort (effGE D.hasMaskScores) kept, D.hasMaskScores⟩

/-- C1, as stated, is false: on a `DetectionSet` carrying mask scores
(two detections of class 1, raw scores 2 and 8, mask scores 9 and 6,
threshold table `[5]`), the code sorts the survivors by their RAW
scores, not by their mask scores, so the output order differs from the
one the claim (filter AND sort by the mask score) requires. -/
theorem C1_counterexample :
    selectSpecC1 ⟨[⟨1, 2, 9, (0, 0, 0, 0), []⟩, ⟨1, 8, 6, (0, 0, 0, 0), []⟩], true⟩ [5] ≠
      select ⟨[⟨1, 2, 9, (0, 0, 0, 0), []⟩, ⟨1, 8, 6, (0, 0, 0, 0), []⟩], true⟩ [5] :=
  fun h => absurd (congrArg Except.toOption h) (by decide)

/-- C1 (amended): `select` keeps exactly the detections whose effective
score (the mask score when the set carries one, the raw score
otherwise) strictly exceeds the threshold `thresholds[label-1]` for
their class; the mask score is used for the filter only, and the
subsequent descending sort always uses the raw detection score. -/
theorem C1_amended (D : DetectionSet) (T : List ℚ) (R : DetectionSet)
    (h : select D T = .ok R) :
    (∀ d, d ∈ R.dets ↔ (d ∈ D.dets ∧ passB D.hasMaskScores T d = true)) ∧
      R.dets.Perm (D.dets.filter (passB D.hasMaskScores T)) ∧
      List.Sorted scoreGE R.dets := by
  obtain ⟨hdets, _⟩ := select_ok_eq h
  refine ⟨?_, ?_, ?_⟩
  · intro d
    rw [hdets, List.mem_insertionSort, List.mem_filter]
  · rw [hdets]; exact List.perm_insertionSort _ _
  · rw [hdets]; exact List.sorted_insertionSort _ _

/-- Witness for C1 (amended) at the counterexample input: the kept
detections are exactly the two whose mask score exceeds 5, permuted
from the filter output and sorted by raw score descending. -/
theorem C1_witness :
    (∀ d, d ∈ (⟨[⟨1, 8, 6, (0, 0, 0, 0), []⟩, ⟨1, 2, 9, (0, 0, 0, 0), []⟩], true⟩ :
        DetectionSet).dets ↔
      (d ∈ (⟨[⟨1, 2, 9, (0, 0, 0, 0), []⟩, ⟨1, 8, 6, (0, 0, 0, 0), []⟩], true⟩ :
        DetectionSet).dets ∧ passB true [5] d = true)) ∧
      (⟨[⟨1, 8, 6, (0, 0, 0, 0), []⟩, ⟨1, 2, 9, (0, 0, 0, 0), []⟩], true⟩ :
        DetectionSet).dets.Perm
        ((⟨[⟨1, 2, 9, (0, 0, 0, 0), []⟩, ⟨1, 8, 6, (0, 0, 0, 0), []⟩], true⟩ :
          DetectionSet).dets.filter (passB true [5])) ∧
      List.Sorted scoreGE (⟨[⟨1, 8, 6, (0, 0, 0, 0), []⟩, ⟨1, 2, 9, (0, 0, 0, 0), []⟩], true⟩ :
        DetectionSet).dets :=
  C1_amended ⟨[⟨1, 2, 9, (0, 0, 0, 0), []⟩, ⟨1, 8, 6, (0, 0, 0, 0), []⟩], true⟩ [5]
    ⟨[⟨1, 8, 6, (0, 0, 0, 0), []⟩, ⟨1, 2, 9, (0, 0, 0, 0), []⟩], true⟩ rfl

/-- C2: if some detection's class label `L` (a real, non-background
label, `1 ≤ L`) has no entry in the per-class threshold table
(`len(thresholds) ≤ L - 1`), `select` fails with the configuration
error for the whole call — the detection is not silently skipped. -/
theorem C2_missing_threshold_fails (D : DetectionSet) (T : List ℚ) (d : Detection)
    (hmem : d ∈ D.dets) (hpos : 1 ≤ d.label) (hbig : (T.length : ℤ) ≤ d.label - 1) :
    select D T = .error .configurationError := by
  have hnone : pyGet T (d.label - 1) = none := pyGet_none_of_ge (by omega) hbig
  unfold select
  rw [filterKeep_error_of_none hmem hnone]

/-- Witness for C2: a single detection of class 3 with only a
two-entry threshold table makes the whole call fail. -/
theorem C2_witness :
    (1 : ℤ) ≤ 3 ∧
      select ⟨[⟨3, 9, 9, (0, 0, 0, 0), []⟩], false⟩ [5, 5] = .error .configurationError :=
  ⟨by decide,
    C2_missing_threshold_fails ⟨[⟨3, 9, 9, (0, 0, 0, 0), []⟩], false⟩ [5, 5]
      ⟨3, 9, 9, (0, 0, 0, 0), []⟩ (List.mem_singleton.mpr rfl) (by decide) (by decide)⟩

/-- C9: a background-labelled detection (label 0) does not make the
threshold lookup fail: `confidence_threshold[0-1]` wraps via Python
negative indexing to the LAST entry of a nonempty threshold table, and
the detection is filtered against that final class's threshold. -/
theorem C9_background_wraps (T : List ℚ) (hT : T ≠ []) (d : Detection)
    (hlab : d.label = 0) (ms : Bool) :
    lookupThreshold T d = .ok (T.getLast hT) ∧
      select ⟨[d], ms⟩ T =
        .ok ⟨if T.getLast hT < effScore ms d then [d] else [], ms⟩ := by
  have hlen : 0 < T.length := List.length_pos.mpr hT
  have hget : pyGet T (d.label - 1) = some (T.getLast hT) := by
    rw [hlab]
    show pyGet T (-1) = _
    unfold pyGet
    have h1 : ((-1 : ℤ) < 0) = True := by simp
    have hj : (if (-1 : ℤ) < 0 then (T.length : ℤ) + (-1) else (-1 : ℤ)) =
        (T.length : ℤ) - 1 := by simp; ring
    rw [hj]
    rw [if_pos (by omega)]
    have htn : ((T.length : ℤ) - 1).toNat = T.length - 1 := by omega
    rw [htn, List.getElem?_eq_getElem (by omega), List.getLast_eq_getElem]
  have hlook : lookupThreshold T d = .ok (T.getLast hT) := by
    unfold lookupThreshold; rw [hget]
  refine ⟨hlook, ?_⟩
  have hfk : filterKeep ms T [d] =
      .ok (if T.getLast hT < effScore ms d then [d] else []) := by
    rw [filterKeep, hlook, filterKeep]
  unfold select
  rw [hfk]
  by_cases hlt : T.getLast hT < effScore ms d
  · rw [if_pos hlt]
    rfl
  · rw [if_neg hlt]
    rfl

/-- Witness for C9: with thresholds `[5, 3]`, a label-0 detection is
checked against the final entry 3 and kept since its score 4 exceeds
it. -/
theorem C9_witness :
    lookupThreshold [5, 3] ⟨0, 4, 4, (0, 0, 0, 0), []⟩ = .ok 3 ∧
      select ⟨[⟨0, 4, 4, (0, 0, 0, 0), []⟩], false⟩ [5, 3] =
        .ok ⟨[⟨0, 4, 4, (0, 0, 0, 0), []⟩], false⟩ := by
  have h := C9_background_wraps [5, 3] (by decide) ⟨0, 4, 4, (0, 0, 0, 0), []⟩ rfl false
  have hlast : ([5, 3] : List ℚ).getLast (by decide) = 3 := rfl
  refine ⟨?_, ?_⟩
  · rw [h.1, hlast]
  · rw [h.2]
    norm_num [hlast, effScore]

/-- Pixel count of a binary instance mask: the number of entries equal
to 1 (`area_1 = np.where(mask == 1); area = len(area_1[0])`). -/
def countOnes (m : List (List ℕ)) : ℕ :=
  (m.map (fun row => row.countP (fun v => v == 1))).sum

/-- `COCODemo.overlay_mask`. External OpenCV primitives are passed in
as functions: `drawContoursFill` stands for
`cv2.findContours` + `cv2.drawContours(mask_img, contours, -1, color, -1)`
(both total: an empty mask yields zero contours and draws nothing),
and `addWeighted` for the final uniform alpha blend
`cv2.addWeighted(image, 0.55, mask_img, 0.45, 0)`. The scratch copy
`mask_img = np.copy(image)` is the pure value `image`. The loop runs
over `zip(masks, colors)` — pairing each mask with a palette color and
STOPPING at the shorter of the two lists — drawing each mask's contours
and appending its pixel count to `areas`. -/
def overlayMask {Img : Type} (drawContoursFill : Img → List (List ℕ) → Color → Img)
    (addWeighted : Img → Img → Img) (image : Img)
    (masks : List (List (List ℕ))) (colors : List Color) : Img × List ℕ :=
  let loop := (masks.zip colors).foldl
    (fun acc p => (drawContoursFill acc.1 p.1 p.2, acc.2 ++ [countOnes p.1])) (image, [])
  (addWeighted image loop.1, loop.2)

lemma overlayMask_foldl_areas {Img : Type}
    (drawContoursFill : Img → List (List ℕ) → Color → Img) :
    ∀ (pairs : List (List (List ℕ) × Color)) (im : Img) (acc : List ℕ),
      (pairs.foldl
          (fun acc p => (drawContoursFill acc.1 p.1 p.2, acc.2 ++ [countOnes p.1]))
          (im, acc)).2 =
        acc ++ pairs.map (fun p => countOnes p.1) := by
  intro pairs
  induction pairs with
  | nil => intro im acc; simp
  | cons p rest ih =>
    intro im acc
    rw [List.foldl_cons, List.map_cons, ih]
    simp

lemma zip_map_fst_take {A B : Type} :
    ∀ (l1 : List A) (l2 : List B), (l1.zip l2).map Prod.fst = l1.take l2.length := by
  intro l1
  induction l1 with
  | nil => intro l2; simp
  | cons a l1 ih =>
    intro l2
    cases l2 with
    | nil => simp
    | cons b l2 => simp [ih]

/-- C5 (amended): `overlay_mask` returns one area per detection only
for the first `min(n, len(colorTable))` detections — `zip` truncates at
the shorter list, so detections beyond the palette length get no
entry — and each returned entry is, in input order, exactly the count
of pixels equal to 1 in that detection's mask; an all-zero (empty)
mask contributes area 0 and never an error. -/
theorem C5_amended {Img : Type} (drawContoursFill : Img → List (List ℕ) → Color → Img)
    (addWeighted : Img → Img → Img) (image : Img)
    (masks : List (List (List ℕ))) (colors : List Color) :
    (overlayMask drawContoursFill addWeighted image masks colors).2 =
        (masks.take colors.length).map countOnes ∧
      ∀ h w : ℕ, countOnes (List.replicate h (List.replicate w 0)) = 0 := by
  constructor
  · unfold overlayMask
    rw [overlayMask_foldl_areas]
    have : (masks.zip colors).map (fun p => countOnes p.1) =
        ((masks.zip colors).map Prod.fst).map countOnes := by
      rw [List.map_map]; rfl
    rw [this, zip_map_fst_take]
    rfl
  · intro h w
    unfold countOnes
    have hrow : (List.replicate w (0 : ℕ)).countP (fun v => v == 1) = 0 := by
      rw [List.countP_eq_zero]
      intro a ha
      rw [List.eq_of_mem_replicate ha]
      decide
    rw [List.map_replicate, hrow, List.sum_replicate, smul_zero]

/-- C5, as stated, is false: `zip(masks, colors)` truncates at the
color table, so with two masked detections and a one-entry color table
the area list has a single entry, not one per detection. -/
theorem C5_counterexample :
    (overlayMask (fun (i : Unit) _ _ => i) (fun i _ => i) () [[[1]], [[1]]] [(0, 0, 0)]).2 =
        [1] ∧
      ((overlayMask (fun (i : Unit) _ _ => i) (fun i _ => i) () [[[1]], [[1]]]
          [(0, 0, 0)]).2).length ≠ [[[1]], [[1]]].length := by
  constructor
  · rfl
  · decide

/-- An image buffer as a pixel function (row `y`, column `x`). OpenCV
drawing primitives write into the buffer passed to them and return
that same buffer, so the caller's buffer after
`image = cv2.rectangle(image, ...)` holds exactly the returned
image. -/
def Image2D : Type := ℕ → ℕ → Color

/-- `box.to(torch.int64)`: float-to-integer conversion truncates
toward zero. -/
def ratTrunc (q : ℚ) : ℤ := Int.tdiv q.num q.den

/-- The integer corner coordinates `(x1, y1, x2, y2)` handed to
`cv2.rectangle`. -/
def truncBox (b : ℚ × ℚ × ℚ × ℚ) : ℤ × ℤ × ℤ × ℤ :=
  (ratTrunc b.1, ratTrunc b.2.1, ratTrunc b.2.2.1, ratTrunc b.2.2.2)

/-- Membership of pixel `(x, y)` in the one-pixel-wide border of the
rectangle with (unordered) corner points `(x1, y1)` and `(x2, y2)`,
as drawn by `cv2.rectangle(img, pt1, pt2, color, 1)`. -/
def onBorder (b : ℤ × ℤ × ℤ × ℤ) (x y : ℤ) : Prop :=
  ((x = min b.1 b.2.2.1 ∨ x = max b.1 b.2.2.1) ∧
      min b.2.1 b.2.2.2 ≤ y ∧ y ≤ max b.2.1 b.2.2.2) ∨
    ((y = min b.2.1 b.2.2.2 ∨ y = max b.2.1 b.2.2.2) ∧
      min b.1 b.2.2.1 ≤ x ∧ x ≤ max b.1 b.2.2.1)

instance (b : ℤ × ℤ × ℤ × ℤ) (x y : ℤ) : Decidable (onBorder b x y) := by
  unfold onBorder; infer_instance

/-- Pixel `(y, x)` of the image is written by
`cv2.rectangle(img, pt1, pt2, color, 1)`: it lies inside the image
bounds (OpenCV clips) and on the rectangle border. -/
def pixOn (h w : ℕ) (b : ℤ × ℤ × ℤ × ℤ) (y x : ℕ) : Prop :=
  y < h ∧ x < w ∧ onBorder b (x : ℤ) (y : ℤ)

instance (h w : ℕ) (b : ℤ × ℤ × ℤ × ℤ) (y x : ℕ) : Decidable (pixOn h w b y x) := by
  unfold pixOn; infer_instance

/-- `cv2.rectangle(img, pt1, pt2, color, 1)`: set every border pixel
inside the bounds to `color`; OpenCV performs this write in place on
`img`'s buffer and returns that buffer. -/
def drawRectPx (h w : ℕ) (img : Image2D) (b : ℤ × ℤ × ℤ × ℤ) (c : Color) : Image2D :=
  fun y x => if pixOn h w b y x then c else img y x

/-- `COCODemo.overlay_boxes`: draw, over `zip(boxes, colors)` (stopping
at the shorter list — there is no modular cycling), each detection's
integer-truncated box as a one-pixel rectangle in the paired palette
color. Every `cv2.rectangle` call writes into the caller's buffer, so
the caller's buffer after the call is the returned image. -/
def overlayBoxes (h w : ℕ) (image : Image2D) (dets : List Detection)
    (colors : List Color) : Image2D :=
  ((dets.map (fun d => truncBox d.box)).zip colors).foldl
    (fun im p => drawRectPx h w im p.1 p.2) image

lemma foldl_draw_not_covered {h w : ℕ} {y x : ℕ} :
    ∀ (pairs : List ((ℤ × ℤ × ℤ × ℤ) × Color)) (img : Image2D),
      (∀ p ∈ pairs, ¬pixOn h w p.1 y x) →
      pairs.foldl (fun im p => drawRectPx h w im p.1 p.2) img y x = img y x := by
  intro pairs
  induction pairs with
  | nil => intro img _; rfl
  | cons p rest ih =>
    intro img hcov
    rw [List.foldl_cons]
    rw [ih _ (fun q hq => hcov q (List.mem_cons_of_mem p hq))]
    unfold drawRectPx
    rw [if_neg (hcov p (List.mem_cons_self p rest))]

lemma foldl_draw_last_covered {h w : ℕ} {y x : ℕ} :
    ∀ (pairs : List ((ℤ × ℤ × ℤ × ℤ) × Color)) (i : ℕ) (hi : i < pairs.length)
      (img : Image2D),
      pixOn h w (pairs.get ⟨i, hi⟩).1 y x →
      (∀ j (hj : j < pairs.length), i < j → ¬pixOn h w (pairs.get ⟨j, hj⟩).1 y x) →
      pairs.foldl (fun im p => drawRectPx h w im p.1 p.2) img y x = (pairs.get ⟨i, hi⟩).2 := by
  intro pairs
  induction pairs with
  | nil => intro i hi; exact absurd hi (by simp)
  | cons p rest ih =>
    intro i hi img hcov hlater
    rw [List.foldl_cons]
    cases i with
    | zero =>
      have hrest : ∀ q ∈ rest, ¬pixOn h w q.1 y x := by
        intro q hq
        obtain ⟨j, hqj⟩ := List.mem_iff_get.mp hq
        have hlt : (j : ℕ) + 1 < (p :: rest).length := by
          simp
        have hthis := hlater ((j : ℕ) + 1) hlt (Nat.succ_pos _)
        rw [List.get_cons_succ] at hthis
        rw [← hqj]
        exact hthis
      rw [foldl_draw_not_covered rest _ hrest]
      have hcov0 : pixOn h w p.1 y x := hcov
      show drawRectPx h w img p.1 p.2 y x = _
      unfold drawRectPx
      rw [if_pos hcov0]
      rfl
    | succ i' =>
      have hi' : i' < rest.length := Nat.lt_of_succ_lt_succ hi
      have hcov' : pixOn h w (rest.get ⟨i', hi'⟩).1 y x := by
        rw [List.get_cons_succ] at hcov; exact hcov
      refine (ih i' hi' (drawRectPx h w img p.1 p.2) hcov' ?_).trans ?_
      · intro j hj hij
        have := hlater (j + 1) (by simpa using Nat.succ_lt_succ hj)
          (Nat.succ_lt_succ hij)
        rw [List.get_cons_succ] at this
        exact this
      · rw [List.get_cons_succ]

/-- C8, as stated, is false: `overlay_boxes` has no working copy and
no in-place opt-in flag — `cv2.rectangle` writes into the caller's
buffer, so after the call the caller's buffer (the returned image)
differs from the image that was passed in: on an all-black 3×3 image,
drawing the box `(0,0)–(2,2)` in color `(255,0,0)` changes pixel
`(0,0)`. -/
theorem C8_counterexample :
    overlayBoxes 3 3 (fun _ _ => (0, 0, 0)) [⟨1, 9, 9, (0, 0, 2, 2), []⟩]
        [(255, 0, 0)] 0 0 ≠
      (fun (_ _ : ℕ) => ((0, 0, 0) : Color)) 0 0 := by
  decide

/-- C8 (amended): `overlay_boxes` draws directly into the caller's
buffer (the returned image IS the caller's buffer after the call;
there is no copy and no opt-in flag), and only the first
`min(n, len(colorTable))` detections are drawn — `zip` truncates, it
does not cycle by `position mod len(colorTable)`: a pixel covered by
no drawn rectangle border keeps its input value, and a pixel whose
last covering rectangle is the `i`-th drawn one receives
`colorTable[i]`. -/
theorem C8_amended (h w : ℕ) (image : Image2D) (dets : List Detection)
    (colors : List Color) (y x : ℕ) :
    ((∀ p ∈ (dets.map (fun d => truncBox d.box)).zip colors, ¬pixOn h w p.1 y x) →
        overlayBoxes h w image dets colors y x = image y x) ∧
      (∀ i (hi : i < ((dets.map (fun d => truncBox d.box)).zip colors).length),
        pixOn h w (((dets.map (fun d => truncBox d.box)).zip colors).get ⟨i, hi⟩).1 y x →
        (∀ j (hj : j < ((dets.map (fun d => truncBox d.box)).zip colors).length),
          i < j →
          ¬pixOn h w (((dets.map (fun d => truncBox d.box)).zip colors).get ⟨j, hj⟩).1 y x) →
        overlayBoxes h w image dets colors y x =
          (((dets.map (fun d => truncBox d.box)).zip colors).get ⟨i, hi⟩).2) := by
  constructor
  · intro hnone
    exact foldl_draw_not_covered _ image hnone
  · intro i hi hcov hlater
    exact foldl_draw_last_covered _ i hi image hcov hlater

/-- Witness for C8 (amended): on a 3×3 black image with one box
`(0,0)–(1,1)` and one palette color, the uncovered pixel `(2,2)` is
unchanged and the covered corner pixel `(0,0)` receives the palette
color. -/
theorem C8_witness :
    overlayBoxes 3 3 (fun _ _ => (0, 0, 0)) [⟨1, 9, 9, (0, 0, 1, 1), []⟩]
          [(7, 8, 9)] 2 2 =
        (fun (_ _ : ℕ) => ((0, 0, 0) : Color)) 2 2 ∧
      overlayBoxes 3 3 (fun _ _ => (0, 0, 0)) [⟨1, 9, 9, (0, 0, 1, 1), []⟩]
          [(7, 8, 9)] 0 0 = (7, 8, 9) := by
  constructor
  · exact (C8_amended 3 3 (fun _ _ => (0, 0, 0)) [⟨1, 9, 9, (0, 0, 1, 1), []⟩]
      [(7, 8, 9)] 2 2).1 (by decide)
  · exact (C8_amended 3 3 (fun _ _ => (0, 0, 0)) [⟨1, 9, 9, (0, 0, 1, 1), []⟩]
      [(7, 8, 9)] 0 0).2 0 (by decide) (by decide)
      (fun j hj hij => absurd (lt_of_lt_of_le hij (Nat.lt_succ_iff.mp (by simpa using hj)))
        (lt_irrefl 0))

/-- A single-channel mask array as a pixel function (row, column). -/
def Mask2D : Type := ℕ → ℕ → ℕ

/-- `L.interpolate(masks.float(), scale_factor=1/masks_per_dim).byte()`
with nearest interpolation: output size `⌊H/g⌋ × ⌊W/g⌋`, output pixel
`(i, j)` reads input pixel `(i*g, j*g)`. -/
def downsampleNearest (g : ℕ) (m : Mask2D) : Mask2D := fun i j => m (i * g) (j * g)

/-- The all-zero mask tile. -/
def zeroMask2D : Mask2D := fun _ _ => 0

/-- `masks = masks[:max_masks]` followed by
`masks_padded = torch.zeros(max_masks, ...); masks_padded[:len(masks)] = masks`:
keep the first `k` masks and pad with all-zero tiles up to `k`. -/
def padMasks (k : ℕ) (ms : List Mask2D) : List Mask2D :=
  ms.take k ++ List.replicate (k - ms.length) zeroMask2D

/-- One slice assignment
`result[start_y:end_y, start_x:end_x] = masks[y, x]` of the montage
loop: write tile `m` into grid cell `(yb, xb)` of the canvas. -/
def writeBlock (hM wM : ℕ) (yb xb : ℕ) (m : Mask2D) (res : Mask2D) : Mask2D :=
  fun Y X =>
    if yb * hM ≤ Y ∧ Y < (yb + 1) * hM ∧ xb * wM ≤ X ∧ X < (xb + 1) * wM then
      m (Y - yb * hM) (X - xb * wM)
    else res Y X

/-- The montage double loop: starting from the all-zero canvas
`torch.zeros((masks_per_dim*height, masks_per_dim*width))`, write the
padded tiles row-major — cell `(y, x)` receives tile `y*g + x` of the
reshaped `(g, g, h, w)` tensor. -/
def tileMasks (g hM wM : ℕ) (padded : List Mask2D) : Mask2D :=
  (List.range g).foldl
    (fun res yb =>
      (List.range g).foldl
        (fun res2 xb =>
          writeBlock hM wM yb xb (padded.getD (yb * g + xb) zeroMask2D) res2)
        res)
    zeroMask2D

/-- `COCODemo.create_mask_montage`: downsample every mask by
`1/masks_per_dim`, keep the first `g²`, zero-pad the remaining grid
cells, tile row-major, and apply the fixed colormap
(`cv2.applyColorMap(result, cv2.COLORMAP_JET)` maps each byte through
a lookup table, i.e. acts pointwise; the external jet table is the
parameter `cmap`). -/
def createMaskMontage (cmap : ℕ → Color) (g H W : ℕ) (masks : List Mask2D) :
    ℕ → ℕ → Color :=
  fun Y X =>
    cmap (tileMasks g (H / g) (W / g)
      (padMasks (g * g) (masks.map (downsampleNearest g))) Y X)

lemma foldl_write_const {F : Mask2D → ℕ → Mask2D} {Y X : ℕ} :
    ∀ (l : List ℕ) (res : Mask2D), (∀ k ∈ l, ∀ r : Mask2D, F r k Y X = r Y X) →
      (l.foldl F res) Y X = res Y X := by
  intro l
  induction l with
  | nil => intro res _; rfl
  | cons a l ih =>
    intro res hconst
    rw [List.foldl_cons, ih _ (fun k hk => hconst k (List.mem_cons_of_mem a hk))]
    exact hconst a (List.mem_cons_self a l) res

lemma foldl_write_unique {F : Mask2D → ℕ → Mask2D} {Y X : ℕ} {k : ℕ} {v : ℕ}
    (hk : ∀ r : Mask2D, F r k Y X = v)
    (hother : ∀ k', k' ≠ k → ∀ r : Mask2D, F r k' Y X = r Y X) :
    ∀ (l : List ℕ) (res : Mask2D), k ∈ l → (l.foldl F res) Y X = v := by
  intro l
  induction l with
  | nil => intro res hmem; exact absurd hmem (List.not_mem_nil k)
  | cons a l ih =>
    intro res hmem
    rw [List.foldl_cons]
    by_cases hmem' : k ∈ l
    · exact ih _ hmem'
    · have hak : a = k := by
        rcases List.mem_cons.mp hmem with h | h
        · exact h.symm
        · exact absurd h hmem'
      subst hak
      rw [foldl_write_const l _ (fun k' hk' r =>
        hother k' (fun he => hmem' (he ▸ hk')) r)]
      exact hk res

lemma getD_replicate_self {α : Type} (n : ℕ) (a : α) (i : ℕ) :
    (List.replicate n a).getD i a = a := by
  rw [List.getD_eq_getElem?_getD, List.getElem?_replicate]
  by_cases h : i < n <;> simp [h]

lemma padMasks_getD (k : ℕ) (ms : List Mask2D) (i : ℕ) :
    (padMasks k ms).getD i zeroMask2D = (ms.take k).getD i zeroMask2D := by
  unfold padMasks
  by_cases h : i < (ms.take k).length
  · exact List.getD_append _ _ _ _ h
  · rw [List.getD_append_right _ _ _ _ (le_of_not_lt h),
      getD_replicate_self]
    rw [List.getD_eq_getElem?_getD, List.getElem?_eq_none (le_of_not_lt h)]
    rfl

lemma tileMasks_pixel (g hM wM : ℕ) (padded : List Mask2D) (Y X : ℕ)
    (hY : Y < g * hM) (hX : X < g * wM) :
    tileMasks g hM wM padded Y X =
      padded.getD ((Y / hM) * g + X / wM) zeroMask2D (Y % hM) (X % wM) := by
  have hM0 : 0 < hM := by
    rcases Nat.eq_zero_or_pos hM with h | h
    · rw [h, Nat.mul_zero] at hY; exact absurd hY (Nat.not_lt_zero Y)
    · exact h
  have hW0 : 0 < wM := by
    rcases Nat.eq_zero_or_pos wM with h | h
    · rw [h, Nat.mul_zero] at hX; exact absurd hX (Nat.not_lt_zero X)
    · exact h
  have hby : Y / hM < g := (Nat.div_lt_iff_lt_mul hM0).mpr hY
  have hbx : X / wM < g := (Nat.div_lt_iff_lt_mul hW0).mpr hX
  have hYmod := Nat.div_add_mod Y hM
  have hYr : Y % hM < hM := Nat.mod_lt Y hM0
  have hXmod := Nat.div_add_mod X wM
  have hXr : X % wM < wM := Nat.mod_lt X hW0
  have hbandY : (Y / hM) * hM ≤ Y ∧ Y < (Y / hM + 1) * hM := by
    constructor
    · rw [Nat.mul_comm]; omega
    · rw [Nat.add_mul, Nat.one_mul, Nat.mul_comm]; omega
  have hbandX : (X / wM) * wM ≤ X ∧ X < (X / wM + 1) * wM := by
    constructor
    · rw [Nat.mul_comm]; omega
    · rw [Nat.add_mul, Nat.one_mul, Nat.mul_comm]; omega
  have hoffY : Y - (Y / hM) * hM = Y % hM := by rw [Nat.mul_comm]; omega
  have hoffX : X - (X / wM) * wM = X % wM := by rw [Nat.mul_comm]; omega
  unfold tileMasks
  refine foldl_write_unique ?_ ?_ (List.range g) zeroMask2D (List.mem_range.mpr hby)
  · intro r
    refine foldl_write_unique ?_ ?_ (List.range g) r (List.mem_range.mpr hbx)
    · intro r2
      unfold writeBlock
      rw [if_pos ⟨hbandY.1, hbandY.2, hbandX.1, hbandX.2⟩, hoffY, hoffX]
    · intro xb hxb r2
      unfold writeBlock
      rw [if_neg ?_]
      intro hcov
      exact hxb (Nat.div_eq_of_lt_le hcov.2.2.1 hcov.2.2.2 ▸ rfl)
  · intro yb hyb r
    refine foldl_write_const (List.range g) r ?_
    intro xb _ r2
    unfold writeBlock
    rw [if_neg ?_]
    intro hcov
    exact hyb (Nat.div_eq_of_lt_le hcov.1 hcov.2.1 ▸ rfl)

/-- C7: every in-bounds pixel of the montage is the colormap applied
to the corresponding pixel of the row-major `g × g` tiling of the
first `g²` downsampled masks, with any grid cell beyond the number of
masks reading as an all-zero tile (so with 0 masks the whole
pre-colormap canvas of size `(g*(H/g), g*(W/g))` is zero). -/
theorem C7_montage_grid (cmap : ℕ → Color) (g H W : ℕ) (masks : List Mask2D) (Y X : ℕ)
    (hY : Y < g * (H / g)) (hX : X < g * (W / g)) :
    createMaskMontage cmap g H W masks Y X =
      cmap ((((masks.map (downsampleNearest g)).take (g * g)).getD
        ((Y / (H / g)) * g + X / (W / g)) zeroMask2D) (Y % (H / g)) (X % (W / g))) := by
  unfold createMaskMontage
  rw [tileMasks_pixel _ _ _ _ _ _ hY hX, padMasks_getD]

/-- Witness for C7: a `2 × 2` montage of a single `2 × 2` mask at the
padded cell `(1,1)` (grid index 3, beyond the single mask) reads the
all-zero tile, so the pixel is the colormap of 0. -/
theorem C7_witness :
    createMaskMontage (fun v => (v, v, v)) 2 2 2 [fun i j => i + j + 5] 1 1 =
        (fun v => ((v, v, v) : Color))
          ((([fun i j => i + j + 5].map (downsampleNearest 2)).take (2 * 2)).getD
            ((1 / (2 / 2)) * 2 + 1 / (2 / 2)) zeroMask2D (1 % (2 / 2)) (1 % (2 / 2))) ∧
      createMaskMontage (fun v => (v, v, v)) 2 2 2 [fun i j => i + j + 5] 1 1 = (0, 0, 0) :=
  ⟨C7_montage_grid (fun v => (v, v, v)) 2 2 2 [fun i j => i + j + 5] 1 1
      (by decide) (by decide),
    rfl⟩

/-- One overlay application performed on a rendered image by
`run_on_opencv_image`; a rendered image is modelled by its trace of
overlay applications (the pixel contents are irrelevant to the
dispatch claims). `classNames b` records a call
`overlay_class_names(result, top_predictions, b)`. -/
inductive RenderOp where
  | boxes
  | mask
  | keypoints
  | classNames (displayScore : Bool)
  | montageOp
deriving DecidableEq, Repr

/-- The structured per-image result dictionary. `area = none` models a
dictionary WITHOUT the `"area"` key (the batch-empty path builds
`{"masks": [], "class_ids": [], "rois": [], "scores": []}`);
`area = some l` models the key being present. -/
structure ResultData where
  masks : List (List (List ℕ))
  classIds : List ℤ
  rois : List (ℚ × ℚ × ℚ × ℚ)
  scores : List ℚ
  area : Option (List ℕ)
deriving DecidableEq, Repr

/-- The configuration flags `run_on_opencv_image` dispatches on:
`self.show_mask_heatmaps`, `cfg.MODEL.MASK_ON`,
`cfg.MODEL.KEYPOINT_ON`, `self.display_text`, `self.display_score`. -/
structure Config where
  showMaskHeatmaps : Bool
  maskOn : Bool
  keypointOn : Bool
  displayText : Bool
  displayScore : Bool
deriving DecidableEq, Repr

/-- The four distinct shapes `run_on_opencv_image` returns:
* `batchEmpty`: `predictions_ == []` → the 3-tuple
  `(results, results_data, zeros_id)` with `results = []` and a single
  4-key dictionary;
* `imageEmpty`: some image has `len(predictions) == 0` → the 2-tuple
  `({"masks": [], ..., "area": []}, image)` returning the raw input
  batch;
* `montage`: heatmap mode → the montage image alone;
* `normal`: the 3-tuple `(results_data, results, zeros_id)` (note the
  swapped component order relative to `batchEmpty`). -/
inductive RunOut where
  | batchEmpty (results : List (List RenderOp)) (resultsData : List ResultData) (zerosId : ℕ)
  | imageEmpty (data : ResultData) (images : List ℕ)
  | montage (image : List RenderOp)
  | normal (resultsData : List ResultData) (results : List (List RenderOp)) (zerosId : ℕ)
deriving DecidableEq, Repr

/-- The overlay applications performed on one rendered image, in
source order: `overlay_boxes`, `overlay_mask` if `MASK_ON`,
`overlay_keypoints` if `KEYPOINT_ON`, `overlay_class_names(...,
self.display_score)` if `self.display_text`, and unconditionally
`overlay_class_names(..., True)`. -/
def renderOps (cfg : Config) : List RenderOp :=
  [RenderOp.boxes]
    ++ (if cfg.maskOn then [RenderOp.mask] else [])
    ++ (if cfg.keypointOn then [RenderOp.keypoints] else [])
    ++ (if cfg.displayText then [RenderOp.classNames cfg.displayScore] else [])
    ++ [RenderOp.classNames true]

/-- The `areas` list produced by the `overlay_mask` call inside
`run_on_opencv_image` (its image output is irrelevant here, so the
drawing callbacks are trivial). -/
def maskAreas (top : DetectionSet) (colors : List Color) : List ℕ :=
  (overlayMask (fun (i : Unit) _ _ => i) (fun i _ => i) ()
    (top.dets.map (fun d => d.mask)) colors).2

/-- The per-image `result_data` dictionary of the normal path:
`{"masks": ..., "class_ids": ..., "rois": ..., "scores": ..., "area": areas}`. -/
def resultDataOf (top : DetectionSet) (areas : List ℕ) : ResultData :=
  ⟨top.dets.map (fun d => d.mask), top.dets.map (fun d => d.label),
    top.dets.map (fun d => d.box), top.dets.map (fun d => d.score), some areas⟩

/-- The `for predictions in predictions_:` loop of
`run_on_opencv_image`, with `accData`/`accRes` the `results_data` and
`results` accumulators. An image with no detections returns the
`imageEmpty` 2-tuple immediately; heatmap mode returns the montage
immediately; otherwise the image's overlays and `result_data` are
appended and the loop continues. -/
def runLoop (cfg : Config) (T : List ℚ) (colors : List Color) (zerosId : ℕ)
    (images : List ℕ) :
    List DetectionSet → List ResultData → List (List RenderOp) →
      Except SelectError RunOut
  | [], accData, accRes => .ok (.normal accData accRes zerosId)
  | p :: rest, accData, accRes =>
    if p.dets = [] then
      .ok (.imageEmpty ⟨[], [], [], [], some []⟩ images)
    else
      match select p T with
      | .error e => .error e
      | .ok top =>
        if cfg.showMaskHeatmaps then
          .ok (.montage [RenderOp.montageOp])
        else
          runLoop cfg T colors zerosId images rest
            (accData ++ [resultDataOf top (if cfg.maskOn then maskAreas top colors else [])])
            (accRes ++ [renderOps cfg])

/-- `COCODemo.run_on_opencv_image`: the `predictions_ == []` early
return, then the per-image loop. `colors` is the external fixed
palette `colormap(rgb=True)`, `zerosId` the opaque `zeros_id` returned
by the detector, `images` the raw input batch. -/
def runOnImage (cfg : Config) (T : List ℚ) (colors : List Color) (zerosId : ℕ)
    (preds : List DetectionSet) (images : List ℕ) : Except SelectError RunOut :=
  if preds = [] then
    .ok (.batchEmpty [] [⟨[], [], [], [], none⟩] zerosId)
  else
    runLoop cfg T colors zerosId images preds [] []

/-- C6: the claim is right and the code is wrong (the spec itself
flags the inconsistent empty sentinels as a bug). On a batch whose one
image has zero detections, the pipeline does not raise, but it returns
the `imageEmpty` 2-tuple whose dictionary carries an extra `"area"`
key — not the exact 4-key `{masks: [], class_ids: [], rois: [],
scores: []}` result, and not the same representation as the
batch-empty path's 3-tuple. -/
theorem C6_empty_paths_inconsistent :
    runOnImage ⟨false, true, false, false, false⟩ [5] [(1, 2, 3)] 9 [⟨[], false⟩] [4] =
        .ok (.imageEmpty ⟨[], [], [], [], some []⟩ [4]) ∧
      runOnImage ⟨false, true, false, false, false⟩ [5] [(1, 2, 3)] 9 [] [4] =
        .ok (.batchEmpty [] [⟨[], [], [], [], none⟩] 9) ∧
      (⟨[], [], [], [], some []⟩ : ResultData) ≠ ⟨[], [], [], [], none⟩ :=
  ⟨rfl, rfl, by decide⟩

/-- `True` on the label/score overlay operations. -/
def isClassNames : RenderOp → Bool
  | .classNames _ => true
  | _ => false

lemma renderOps_label_shape (cfg : Config) :
    (renderOps cfg).getLast? = some (RenderOp.classNames true) ∧
      (renderOps cfg).countP isClassNames = (if cfg.displayText then 2 else 1) ∧
      (cfg.displayText = true →
        (renderOps cfg).dropLast.getLast? = some (RenderOp.classNames cfg.displayScore)) := by
  rcases cfg with ⟨a, b, c, d, e⟩
  cases a <;> cases b <;> cases c <;> cases d <;> cases e <;> decide

lemma runLoop_normal_traces (cfg : Config) (T : List ℚ) (colors : List Color) (z : ℕ)
    (imgs : List ℕ) :
    ∀ (l : List DetectionSet) (accData : List ResultData) (accRes : List (List RenderOp))
      (rds : List ResultData) (trs : List (List RenderOp)) (z' : ℕ),
      runLoop cfg T colors z imgs l accData accRes = .ok (.normal rds trs z') →
      ∀ tr ∈ trs, tr ∈ accRes ∨ tr = renderOps cfg := by
  intro l
  induction l with
  | nil =>
    intro accData accRes rds trs z' h tr htr
    rw [runLoop] at h
    simp only [Except.ok.injEq, RunOut.normal.injEq] at h
    left
    rw [h.2.1]
    exact htr
  | cons p rest ih =>
    intro accData accRes rds trs z' h tr htr
    rw [runLoop] at h
    split at h
    · simp at h
    · split at h
      · simp at h
      · split at h
        · simp at h
        · rcases ih _ _ _ _ _ h tr htr with hmem | heq
          · rcases List.mem_append.mp hmem with hmem' | hmem'
            · exact Or.inl hmem'
            · exact Or.inr (List.mem_singleton.mp hmem')
          · exact Or.inr heq

/-- C10: every rendered (non-montage) image produced by
`run_on_opencv_image` has the class-name overlay applied with scores
forced on (`display_score=True`) as its LAST overlay, regardless of
the construction flags; the overlay is applied twice exactly when
`display_text` is set, and then the first application uses the
configured `display_score` flag. -/
theorem C10_label_overlay (cfg : Config) (T : List ℚ) (colors : List Color) (z : ℕ)
    (preds : List DetectionSet) (imgs : List ℕ) (rds : List ResultData)
    (trs : List (List RenderOp)) (z' : ℕ)
    (h : runOnImage cfg T colors z preds imgs = .ok (.normal rds trs z')) :
    ∀ tr ∈ trs,
      tr.getLast? = some (RenderOp.classNames true) ∧
        tr.countP isClassNames = (if cfg.displayText then 2 else 1) ∧
        (cfg.displayText = true →
          tr.dropLast.getLast? = some (RenderOp.classNames cfg.displayScore)) := by
  intro tr htr
  unfold runOnImage at h
  by_cases hp : preds = []
  · rw [if_pos hp] at h
    simp at h
  · rw [if_neg hp] at h
    rcases runLoop_normal_traces cfg T colors z imgs preds [] [] rds trs z' h tr htr with
      hmem | heq
    · exact absurd hmem (List.not_mem_nil tr)
    · rw [heq]
      exact renderOps_label_shape cfg

/-- Witness for C10: a one-image batch with one passing detection,
`display_text=True`, `display_scores=False`: the rendered trace is
`[boxes, classNames false, classNames true]` — the forced
`classNames true` application is last, the overlay ran twice, and the
first run used the configured flag. -/
theorem C10_witness :
    ([RenderOp.boxes, RenderOp.classNames false, RenderOp.classNames true] :
        List RenderOp).getLast? = some (RenderOp.classNames true) ∧
      ([RenderOp.boxes, RenderOp.classNames false, RenderOp.classNames true] :
          List RenderOp).countP isClassNames =
        (if (⟨false, false, false, true, false⟩ : Config).displayText then 2 else 1) ∧
      ((⟨false, false, false, true, false⟩ : Config).displayText = true →
        ([RenderOp.boxes, RenderOp.classNames false, RenderOp.classNames true] :
            List RenderOp).dropLast.getLast? =
          some (RenderOp.classNames (⟨false, false, false, true, false⟩ : Config).displayScore)) :=
  C10_label_overlay ⟨false, false, false, true, false⟩ [5] [] 9
    [⟨[⟨1, 9, 9, (0, 0, 0, 0), []⟩], false⟩] [3]
    [⟨[[]], [1], [(0, 0, 0, 0)], [9], some []⟩]
    [[RenderOp.boxes, RenderOp.classNames false, RenderOp.classNames true]] 9
    rfl
    [RenderOp.boxes, RenderOp.classNames false, RenderOp.classNames true]
    (by simp)
